import Mathlib

/-!
Verification of the node-firebridge data-access core against its
specification.  The definitions below are shallow embeddings of the
TypeScript source:

* `validateSqlQuery` — src/middleware/validation.ts (the SQL safety guard,
  a list of regular-expression checks modelled as executable matchers over
  the character list of the input);
* `normalizePagination` / `createPagination` — src/utils (pagination
  normalization and the Firebird ROWS window clause);
* `CrudService.insert` / `CrudService.update` / `CrudService.insertAndReturnId`
  — src/database/crud.ts (the CRUD statement builder);
* `executeCommandResult` / `executeTransactionOperations` —
  src/database/connection.ts (driver-result normalization and the
  sequential transaction engine);
* `createJob` / `setJobResult` / `setJobError` / `getJob` —
  src/utils/jobManager.ts (the in-memory async job tracker), together with
  the single-request trace shape generated by the POST /async-query route.

JavaScript-specific behaviour (truthiness of `0`/`undefined`/`""`,
the `\s` character class, `String.prototype.trim`) is modelled explicitly.
-/

/-- The character class of the JavaScript regex `\s` (also the set removed
by `String.prototype.trim`). -/
def isJsSpace (c : Char) : Bool :=
  c = ' ' || c = '\t' || c = '\n' || c = '\r' || c = '\x0b' || c = '\x0c' ||
  c = '\u00A0' || c = '\u1680' || ('\u2000' ≤ c && c ≤ '\u200A') ||
  c = '\u2028' || c = '\u2029' || c = '\u202F' || c = '\u205F' ||
  c = '\u3000' || c = '\uFEFF'

/-- JavaScript `sql.trim()`: strip `\s` characters from both ends. -/
def jsTrim (s : List Char) : List Char :=
  ((s.dropWhile isJsSpace).reverse.dropWhile isJsSpace).reverse

/-- Match the literal characters `pat` at the start of `s`, case-insensitively
(the guard's regexes all carry the `i` flag); on success return the rest. -/
def stripCI : List Char → List Char → Option (List Char)
  | [], s => some s
  | _ :: _, [] => none
  | p :: ps, c :: cs => if c.toLower = p.toLower then stripCI ps cs else none

/-- Match `\s+` at the start of `s`: at least one whitespace character,
greedily consumed (the tokens that follow in the guard's patterns never
start with whitespace, so greedy matching loses nothing). -/
def spaces1 : List Char → Option (List Char)
  | [] => none
  | c :: cs => if isJsSpace c then some (cs.dropWhile isJsSpace) else none

/-- Case-sensitive literal match of `pat` at the start of `s`. -/
def startsWithChars : List Char → List Char → Bool
  | [], _ => true
  | _ :: _, [] => false
  | p :: ps, c :: cs => c = p && startsWithChars ps cs

/-- `ALTER\s+(TABLE|DATABASE)` at the current position. -/
def matchAlterAt (s : List Char) : Bool :=
  match stripCI "ALTER".data s with
  | none => false
  | some r1 =>
    match spaces1 r1 with
    | none => false
    | some r2 => (stripCI "TABLE".data r2).isSome || (stripCI "DATABASE".data r2).isSome

/-- `GRANT\s+` at the current position. -/
def matchGrantAt (s : List Char) : Bool :=
  match stripCI "GRANT".data s with
  | none => false
  | some r => (spaces1 r).isSome

/-- `REVOKE\s+` at the current position. -/
def matchRevokeAt (s : List Char) : Bool :=
  match stripCI "REVOKE".data s with
  | none => false
  | some r => (spaces1 r).isSome

/-- `EXECUTE\s+AS\s+` at the current position. -/
def matchExecuteAsAt (s : List Char) : Bool :=
  match stripCI "EXECUTE".data s with
  | none => false
  | some r1 =>
    match spaces1 r1 with
    | none => false
    | some r2 =>
      match stripCI "AS".data r2 with
      | none => false
      | some r3 => (spaces1 r3).isSome

/-- `;\s*$` at the current position: a semicolon followed by nothing but
whitespace up to the end of the input. -/
def matchSemiEndAt (s : List Char) : Bool :=
  match s with
  | ';' :: rest => rest.all isJsSpace
  | _ => false

/-- `pattern.test(sql)`: does the position matcher `m` succeed at some
suffix of `s` (including the empty suffix)? -/
def scanAny (m : List Char → Bool) : List Char → Bool
  | [] => m []
  | c :: cs => m (c :: cs) || scanAny m cs

def hasAlter (s : List Char) : Bool := scanAny matchAlterAt s
def hasGrant (s : List Char) : Bool := scanAny matchGrantAt s
def hasRevoke (s : List Char) : Bool := scanAny matchRevokeAt s
def hasExecuteAs (s : List Char) : Bool := scanAny matchExecuteAsAt s
def hasDashDash (s : List Char) : Bool := scanAny (startsWithChars "--".data) s
def hasSlashStar (s : List Char) : Bool := scanAny (startsWithChars "/*".data) s
def hasSemiEnd (s : List Char) : Bool := scanAny matchSemiEndAt s

/-- The `dangerousPatterns` loop of `validateSqlQuery`: the two `DROP`/`CREATE`
patterns are commented out in the source and hence absent here. -/
def dangerous (s : List Char) : Bool :=
  hasAlter s || hasGrant s || hasRevoke s || hasExecuteAs s ||
  hasDashDash s || hasSlashStar s || hasSemiEnd s

def allowedKeywords : List String :=
  ["SELECT", "INSERT", "UPDATE", "DELETE", "EXECUTE", "CALL", "CREATE", "DROP"]

/-- `^(SELECT|INSERT|UPDATE|DELETE|EXECUTE|CALL|CREATE|DROP)\s+` tested at
the start of the (already trimmed) input. -/
def matchAllowedAt (s : List Char) : Bool :=
  allowedKeywords.any fun kw =>
    match stripCI kw.data s with
    | none => false
    | some r =>
      match r with
      | [] => false
      | c :: _ => isJsSpace c

/-- The SQL safety guard `validateSqlQuery` of src/middleware/validation.ts:
throws (here: returns `.error`) when a dangerous pattern matches, or when the
trimmed input does not start with an allowed leading keyword. -/
def validateSqlQuery (sql : String) : Except String Unit :=
  if dangerous sql.data then
    Except.error "Potentially dangerous SQL operation detected"
  else if matchAllowedAt (jsTrim sql.data) then
    Except.ok ()
  else
    Except.error "Only SELECT, INSERT, UPDATE, DELETE, EXECUTE, CALL, CREATE, and DROP operations are allowed"

/-- Does `validateSqlQuery` throw on this input? -/
def throwsOn (sql : String) : Bool :=
  match validateSqlQuery sql with
  | Except.error _ => true
  | Except.ok _ => false

/-- Plain substring containment (the JS regexes `/--/` and `/\/\*/` are
literal substring tests). -/
def containsStr (pat s : String) : Bool :=
  scanAny (startsWithChars pat.data) s.data

/-- The rejection predicate as the specification words it: the trimmed string
does not start with an allowed leading keyword, or the string contains an
`ALTER TABLE|DATABASE` clause, `GRANT`, `REVOKE`, `EXECUTE AS`
(each a keyword followed by whitespace, as a textual SQL clause), an inline
comment marker `--` or `/*`, or a trailing statement terminator. -/
def specRejects (sql : String) : Bool :=
  !(matchAllowedAt (jsTrim sql.data)) ||
  hasAlter sql.data || hasGrant sql.data || hasRevoke sql.data ||
  hasExecuteAs sql.data ||
  containsStr "--" sql || containsStr "/*" sql || hasSemiEnd sql.data

/-! ## Pagination (src/utils: normalizePagination, createPagination) -/

/-- JavaScript `a || b` on an optional integer: `undefined` and `0` are
falsy and fall through to the default. -/
def jsOrInt (x : Option Int) (d : Int) : Int :=
  match x with
  | none => d
  | some v => if v = 0 then d else v

structure NormalizedPagination where
  limit : Int
  offset : Int
  page : Int
deriving DecidableEq

/-- `normalizePagination(page?, limit?, offset?)` of src/utils/index.ts. -/
def normalizePagination (page limit offset : Option Int) : NormalizedPagination :=
  let normalizedLimit := min (jsOrInt limit 100) 1000
  let normalizedPage := max (jsOrInt page 1) 1
  let normalizedOffset := jsOrInt offset ((normalizedPage - 1) * normalizedLimit)
  ⟨normalizedLimit, normalizedOffset, normalizedPage⟩

/-- `createPagination(page?, limit?, offset?)` of src/utils/index.ts: the
Firebird `ROWS a TO b` window clause, or the empty string when `limit` is
falsy. -/
def createPagination (page limit offset : Option Int) : String :=
  match limit with
  | none => ""
  | some l =>
    if l = 0 then ""
    else
      let actualOffset :=
        jsOrInt offset
          (match page with
           | none => 0
           | some p => if p = 0 then 0 else (p - 1) * l)
      "ROWS " ++ toString (actualOffset + 1) ++ " TO " ++ toString (actualOffset + l)

/-! ## Statements, driver results and the CRUD builder
(src/database/crud.ts, src/database/connection.ts) -/

/-- A closed variant over the scalar values the layer passes around. -/
inductive FbValue where
  | vNull
  | vInt (n : Int)
  | vStr (s : String)
  | vBool (b : Bool)
deriving DecidableEq

/-- A parameterized statement: the SQL text plus its positional arguments. -/
structure Stmt where
  sql : String
  params : List FbValue
deriving DecidableEq

/-- The raw result the node-firebird driver hands to the `db.execute`
callback: either an array of elements or some non-array value (an object,
`undefined`, …). -/
inductive DriverRes (α : Type) where
  | array (elems : List α)
  | nonArray
deriving DecidableEq

/-- The normalized result of `executeCommand`. -/
structure ExecuteResult (α : Type) where
  affectedRows : Int
  recordId : Option α
deriving DecidableEq

/-- Result normalization of `executeCommand` (src/database/connection.ts):
`affectedRows` is the array length (0 for a non-array), and `recordId` is
`result[0]` when the result is an array **of length zero** (the source's
`Array.isArray(result) && result.length === 0 ? result[0] : undefined`),
otherwise `undefined`. -/
def executeCommandResult {α : Type} : DriverRes α → ExecuteResult α
  | .array xs => ⟨(xs.length : Int), if xs.length = 0 then xs.head? else none⟩
  | .nonArray => ⟨0, none⟩

namespace CrudService

/-- `CrudService.insert(tableName, data, idColumn)`: the statement it hands
to `executeCommand`.  `data` is the mapping in its key-iteration order. -/
def insert (tableName : String) (data : List (String × FbValue))
    (idColumn : String) : Stmt :=
  let columns := data.map Prod.fst
  let values := data.map Prod.snd
  let placeholders := String.intercalate ", " (columns.map fun _ => "?")
  ⟨"INSERT INTO " ++ tableName ++ " (" ++ String.intercalate ", " columns ++
      ") VALUES (" ++ placeholders ++ ") " ++
      (if idColumn = "" then "" else "RETURNING " ++ idColumn),
   values⟩

/-- `CrudService.update(tableName, data, whereClause, params, idColumn)`:
the statement it hands to `executeCommand` — the SET clause is built from
the keys of `data`, and the positional parameters are the values of `data`
followed by the extra predicate parameters. -/
def update (tableName : String) (data : List (String × FbValue))
    (whereClause : String) (params : List FbValue) (idColumn : String) : Stmt :=
  let setClause := String.intercalate ", " (data.map fun kv => kv.1 ++ " = ?")
  let values := data.map Prod.snd ++ params
  ⟨"UPDATE " ++ tableName ++ " SET " ++ setClause ++ " WHERE " ++ whereClause ++
      " " ++ (if idColumn = "" then "" else "RETURNING " ++ idColumn),
   values⟩

/-- `CrudService.insertAndReturnId(tableName, data)`: inserts with the
table's discovered primary key as `idColumn` (here the parameter
`primaryKey`, the outcome of the `getPrimaryKey` catalog query) and hands
back the executed result together with `result.recordId` as the generated
id.  `driver` is the backend's response to the built statement. -/
def insertAndReturnId (driver : Stmt → DriverRes FbValue)
    (primaryKey : String) (tableName : String)
    (data : List (String × FbValue)) : ExecuteResult FbValue × Option FbValue :=
  let result := executeCommandResult (driver (insert tableName data primaryKey))
  (result, result.recordId)

end CrudService

/-! ## Transaction sequencer (src/database/connection.ts) -/

/-- The observable actions on a transactional context: submitting one
statement to `transaction.query`, issuing `rollback`, issuing `commit`. -/
inductive TxEvent where
  | exec (stmt : Stmt)
  | rollback
  | commit
deriving DecidableEq

/-- `executeTransactionOperations` of src/database/connection.ts.  `run`
is the driver's reply to `transaction.query` for each statement and
`commitRes` the driver's reply to `transaction.commit`.  The value is the
ordered list of transactional-context events together with the outcome the
outer promise settles with: the accumulated result list on success, or the
wrapping error (operation failure after issuing rollback, or commit
failure).  Statements are executed strictly in order — the recursion
continues only from the success branch of the previous statement's
callback — and execution stops at the first failure. -/
def executeTransactionOperations {ρ : Type} (run : Stmt → Except String ρ)
    (commitRes : Except String Unit) :
    List Stmt → List TxEvent × Except String (List ρ)
  | [] =>
    ([TxEvent.commit],
      match commitRes with
      | Except.ok _ => Except.ok []
      | Except.error e => Except.error ("Transaction commit failed: " ++ e))
  | op :: rest =>
    match run op with
    | Except.error e =>
      ([TxEvent.exec op, TxEvent.rollback],
        Except.error ("Transaction operation failed: " ++ e))
    | Except.ok r =>
      let next := executeTransactionOperations run commitRes rest
      (TxEvent.exec op :: next.1,
        match next.2 with
        | Except.ok rs => Except.ok (r :: rs)
        | Except.error e => Except.error e)

/-! ## Async job tracker (src/utils/jobManager.ts) -/

inductive JobStatus where
  | processing
  | done
  | error
deriving DecidableEq

def JobStatus.isTerminal : JobStatus → Bool
  | .done => true
  | .error => true
  | .processing => false

structure JobResult where
  status : JobStatus
  result : Option FbValue
  error : Option String
deriving DecidableEq

/-- The process-wide `jobs: Record<string, JobResult>` map. -/
def JobMap : Type := String → Option JobResult

def emptyJobs : JobMap := fun _ => none

/-- `createJob(requestId)`: `jobs[requestId] = { status: 'processing' }`. -/
def createJob (requestId : String) (jobs : JobMap) : JobMap :=
  fun k => if k = requestId then some ⟨JobStatus.processing, none, none⟩ else jobs k

/-- `setJobResult(requestId, result)`: `jobs[requestId] = { status: 'done', result }`. -/
def setJobResult (requestId : String) (result : FbValue) (jobs : JobMap) : JobMap :=
  fun k => if k = requestId then some ⟨JobStatus.done, some result, none⟩ else jobs k

/-- `setJobError(requestId, error)`: `jobs[requestId] = { status: 'error', error }`. -/
def setJobError (requestId : String) (error : String) (jobs : JobMap) : JobMap :=
  fun k => if k = requestId then some ⟨JobStatus.error, none, some error⟩ else jobs k

/-- `getJob(requestId)`. -/
def getJob (requestId : String) (jobs : JobMap) : Option JobResult :=
  jobs requestId

/-- One mutation of the job map (the three job-state functions are the only
writers). -/
inductive JobOp where
  | create (requestId : String)
  | setResult (requestId : String) (value : FbValue)
  | setError (requestId : String) (msg : String)
deriving DecidableEq

def JobOp.requestId : JobOp → String
  | .create i => i
  | .setResult i _ => i
  | .setError i _ => i

def applyOp : JobOp → JobMap → JobMap
  | .create i, m => createJob i m
  | .setResult i v, m => setJobResult i v m
  | .setError i e, m => setJobError i e m

/-- Run a sequence of job-map mutations in order. -/
def runOps (ops : List JobOp) (m : JobMap) : JobMap :=
  ops.foldl (fun acc op => applyOp op acc) m

/-- The job map observed after the first `k` mutations of the trace. -/
def stateAt (ops : List JobOp) (m : JobMap) (k : Nat) : JobMap :=
  runOps (ops.take k) m

/-- The background task of POST /async-query ends the job with exactly one
terminal write under its own request id. -/
def finishesJob (requestId : String) (op : JobOp) : Prop :=
  (∃ v, op = JobOp.setResult requestId v) ∨ (∃ msg, op = JobOp.setError requestId msg)

/-- The mutation sequences the system performs for one async request id
(POST /async-query in src/routes, the only caller of the job-state
writers): `createJob id` first, then — after the mutations of unrelated
request ids that interleave — exactly one terminal write for `id` when the
backing query settles. -/
def asyncTrace (requestId : String) (tr : List JobOp) : Prop :=
  ∃ mid fin, tr = JobOp.create requestId :: mid ++ [fin]
    ∧ (∀ op ∈ mid, JobOp.requestId op ≠ requestId)
    ∧ finishesJob requestId fin

/-- A driver stub for witnesses: fails the statement whose text is `"BAD"`. -/
def runTestA : Stmt → Except String Nat :=
  fun s => if s.sql = "BAD" then Except.error "boom" else Except.ok 0

/-- A driver stub for witnesses: every statement succeeds with its own text. -/
def runAllOk : Stmt → Except String String :=
  fun s => Except.ok s.sql

/-! ## Theorems for the SQL safety guard claims -/

theorem throwsOn_eq (sql : String) :
    throwsOn sql = (dangerous sql.data || !(matchAllowedAt (jsTrim sql.data))) := by
  unfold throwsOn validateSqlQuery
  cases hd : dangerous sql.data <;>
    cases ha : matchAllowedAt (jsTrim sql.data) <;> simp [hd, ha]

/-- Claim C6: the guard rejects a raw SQL string iff the trimmed string does
not start with an allowed leading keyword (SELECT, INSERT, UPDATE, DELETE,
EXECUTE, CALL, CREATE, DROP followed by whitespace), or it contains an
ALTER TABLE/DATABASE clause, GRANT, REVOKE, EXECUTE AS, an inline comment
marker (`--` or `/*`), or a trailing statement terminator. -/
theorem validateSqlQuery_reject_characterization (sql : String) :
    throwsOn sql = true ↔ specRejects sql = true := by
  rw [throwsOn_eq]
  have hdd : containsStr "--" sql = hasDashDash sql.data := rfl
  have hss : containsStr "/*" sql = hasSlashStar sql.data := rfl
  unfold specRejects dangerous
  rw [hdd, hss]
  simp only [Bool.or_eq_true, Bool.not_eq_true]
  tauto

theorem validateSqlQuery_reject_characterization_witness :
    throwsOn "SELECT A FROM T; " = true ∧ specRejects "SELECT A FROM T; " = true :=
  ⟨(validateSqlQuery_reject_characterization "SELECT A FROM T; ").mpr (by decide),
   by decide⟩

/-- Claim C1, counterexample: contrary to the claim, the guard accepts
`"SELECT 1; DROP TABLE X"` — the semicolon pattern only matches a *trailing*
terminator, and `DROP` is in the allowed leading keyword set. -/
theorem validateSqlQuery_semicolon_drop_accepted :
    throwsOn "SELECT 1; DROP TABLE X" = false := by decide

/-- Claim C1, amended: the guard throws for every input containing `--` or
`/*`, does not throw for `"SELECT * FROM X WHERE Y = ?"`, and also does not
throw for `"SELECT 1; DROP TABLE X"` (only a trailing semicolon is flagged). -/
theorem validateSqlQuery_comment_and_probe_amended :
    (∀ s : String,
        containsStr "--" s = true ∨ containsStr "/*" s = true → throwsOn s = true)
    ∧ throwsOn "SELECT * FROM X WHERE Y = ?" = false
    ∧ throwsOn "SELECT 1; DROP TABLE X" = false := by
  refine ⟨?_, by decide, by decide⟩
  intro s hs
  have hd : dangerous s.data = true := by
    rcases hs with h | h
    · have h2 : hasDashDash s.data = true := h
      simp [dangerous, h2]
    · have h2 : hasSlashStar s.data = true := h
      simp [dangerous, h2]
  rw [throwsOn_eq, hd]
  rfl

theorem validateSqlQuery_comment_and_probe_amended_witness :
    containsStr "--" "SELECT 1 -- probe" = true
    ∧ throwsOn "SELECT 1 -- probe" = true :=
  ⟨by decide,
   validateSqlQuery_comment_and_probe_amended.1 "SELECT 1 -- probe"
     (Or.inl (by decide))⟩

theorem executeCommandResult_recordId {α : Type} (r : DriverRes α) :
    (executeCommandResult r).recordId = none := by
  cases r with
  | array xs => cases xs <;> simp [executeCommandResult]
  | nonArray => rfl

/-! ## Theorems for the pagination, CRUD and executor claims -/

/-- Claim C4: for `limit ∈ [1,1000]` and `page ≥ 1` with no explicit offset,
normalization yields `offset = (page-1)*limit` and the produced window clause
selects rows `[offset+1, offset+limit]` in 1-based inclusive ROWS syntax;
`limit` defaults to 100 and is capped at 1000, and `page` defaults to 1. -/
theorem normalizePagination_window_spec (page limit : Int)
    (hp : 1 ≤ page) (h1 : 1 ≤ limit) (h2 : limit ≤ 1000) :
    normalizePagination (some page) (some limit) none
        = ⟨limit, (page - 1) * limit, page⟩
    ∧ createPagination (some page) (some limit) none
        = "ROWS " ++ toString ((page - 1) * limit + 1) ++ " TO "
            ++ toString ((page - 1) * limit + limit)
    ∧ normalizePagination none none none = ⟨100, 0, 1⟩
    ∧ (∀ l : Int, (normalizePagination (some page) (some l) none).limit ≤ 1000)
    ∧ (normalizePagination none (some limit) none).page = 1 := by
  have hl0 : ¬ limit = 0 := by omega
  have hp0 : ¬ page = 0 := by omega
  refine ⟨?_, ?_, ?_, ?_, ?_⟩
  · simp [normalizePagination, jsOrInt, hl0, hp0, min_eq_left h2, max_eq_left hp]
  · simp [createPagination, jsOrInt, hl0, hp0]
  · rfl
  · intro l
    show min (jsOrInt (some l) 100) 1000 ≤ 1000
    exact min_le_right _ _
  · simp [normalizePagination, jsOrInt, hl0, min_eq_left h2]

theorem normalizePagination_window_spec_witness :
    (1 : Int) ≤ 2 ∧ normalizePagination (some 2) (some 50) none = ⟨50, 50, 2⟩ := by
  refine ⟨by norm_num, ?_⟩
  have h := (normalizePagination_window_spec 2 50 (by norm_num) (by norm_num)
    (by norm_num)).1
  simpa using h

/-- Claim C9: the positional parameter list of the statement produced by
`update` is exactly the values of `data` (in the mapping's key-iteration
order, matching the generated SET clause) followed by the extra predicate
parameters, in that order. -/
theorem update_params_order (tableName whereClause idColumn : String)
    (data : List (String × FbValue)) (extraParams : List FbValue) :
    (CrudService.update tableName data whereClause extraParams idColumn).params
        = data.map Prod.snd ++ extraParams
    ∧ (CrudService.update tableName data whereClause extraParams idColumn).params.take
          data.length = data.map Prod.snd
    ∧ (CrudService.update tableName data whereClause extraParams idColumn).params.drop
          data.length = extraParams := by
  refine ⟨rfl, ?_, ?_⟩
  · show (data.map Prod.snd ++ extraParams).take data.length = data.map Prod.snd
    have hlen : data.length = (data.map Prod.snd).length := (List.length_map _ _).symm
    rw [hlen, List.take_left]
  · show (data.map Prod.snd ++ extraParams).drop data.length = extraParams
    have hlen : data.length = (data.map Prod.snd).length := (List.length_map _ _).symm
    rw [hlen, List.drop_left]

/-- Claim C10: for every driver result, the `ExecuteResult` produced by
`executeCommand` has `recordId = undefined` — the first element of the
result is only taken when the result is an array of length zero, in which
case it does not exist, so no command ever reports a generated key. -/
theorem executeCommand_recordId_none {α : Type} (r : DriverRes α) :
    (executeCommandResult r).recordId = none :=
  executeCommandResult_recordId r

/-- Claim C5 (code bug): the id handed back by `insertAndReturnId` is always
`undefined`, for every driver response — so it can never identify the freshly
inserted row and the insert/selectById round-trip of the specification fails.
The claim matches the stated intent (and the repository's own CRUD test,
which reads `data.id` from the insert response and then fetches by it); the
`result.length === 0` comparison in `executeCommand` is the slip. -/
theorem insertAndReturnId_recordId_always_none (driver : Stmt → DriverRes FbValue)
    (primaryKey tableName : String) (data : List (String × FbValue)) :
    (CrudService.insertAndReturnId driver primaryKey tableName data).2 = none := by
  show (executeCommandResult (driver (CrudService.insert tableName data primaryKey))).recordId
      = none
  exact executeCommandResult_recordId _

/-- Claim C2: if some statement of the ordered list fails, the statements
before it are executed in order, rollback is issued on the transaction, the
whole call rejects with an error wrapping the triggering cause, no partial
result list is returned, and the statements after the failing one are never
submitted. -/
theorem executeTransaction_rolls_back_on_failure {ρ : Type}
    (run : Stmt → Except String ρ) (commitRes : Except String Unit)
    (pre post : List Stmt) (bad : Stmt) (e : String)
    (hok : ∀ s ∈ pre, ∃ r, run s = Except.ok r)
    (hbad : run bad = Except.error e) :
    executeTransactionOperations run commitRes (pre ++ bad :: post)
      = (pre.map TxEvent.exec ++ [TxEvent.exec bad, TxEvent.rollback],
         Except.error ("Transaction operation failed: " ++ e)) := by
  induction pre with
  | nil => simp [executeTransactionOperations, hbad]
  | cons a rest ih =>
    obtain ⟨r, hr⟩ := hok a (by simp)
    have ih2 := ih fun s hs => hok s (by simp [hs])
    simp [executeTransactionOperations, hr, ih2]

theorem executeTransaction_rolls_back_on_failure_witness :
    executeTransactionOperations runTestA (Except.ok ())
        [Stmt.mk "INSERT 1" [], Stmt.mk "BAD" [], Stmt.mk "INSERT 2" []]
      = ([TxEvent.exec (Stmt.mk "INSERT 1" []), TxEvent.exec (Stmt.mk "BAD" []),
          TxEvent.rollback],
         Except.error ("Transaction operation failed: " ++ "boom")) := by
  have h := executeTransaction_rolls_back_on_failure runTestA (Except.ok ())
    [Stmt.mk "INSERT 1" []] [Stmt.mk "INSERT 2" []] (Stmt.mk "BAD" []) "boom"
    (by
      intro s hs
      simp only [List.mem_singleton] at hs
      subst hs
      exact ⟨0, rfl⟩)
    rfl
  simpa using h

/-- Claim C3: when every statement succeeds, the transaction submits the
statements strictly in order, issues commit, and resolves with the result
list that is index-aligned with the input list and of the same length. -/
theorem executeTransaction_success_results {ρ : Type}
    (run : Stmt → Except String ρ) (f : Stmt → ρ) (ops : List Stmt)
    (hok : ∀ s ∈ ops, run s = Except.ok (f s)) :
    executeTransactionOperations run (Except.ok ()) ops
      = (ops.map TxEvent.exec ++ [TxEvent.commit], Except.ok (ops.map f))
    ∧ (ops.map f).length = ops.length := by
  refine ⟨?_, by simp⟩
  induction ops with
  | nil => rfl
  | cons a rest ih =>
    have ha := hok a (by simp)
    have ih2 := ih fun s hs => hok s (by simp [hs])
    simp [executeTransactionOperations, ha, ih2]

theorem executeTransaction_success_results_witness :
    executeTransactionOperations runAllOk (Except.ok ())
        [Stmt.mk "A" [], Stmt.mk "B" []]
      = ([TxEvent.exec (Stmt.mk "A" []), TxEvent.exec (Stmt.mk "B" []),
          TxEvent.commit], Except.ok ["A", "B"]) := by
  have h := (executeTransaction_success_results runAllOk Stmt.sql
    [Stmt.mk "A" [], Stmt.mk "B" []] (fun s _ => rfl)).1
  simpa using h

/-! ## Theorems for the job tracker claims -/

/-- Claim C7, counterexample: `createJob` on an id that already holds a
terminal job succeeds and replaces the entry with `{status: processing}` —
there is no DuplicateJob failure and the pre-existing entry is not kept. -/
theorem createJob_duplicate_overwrites_counterexample :
    getJob "r1" (createJob "r1"
        (setJobResult "r1" (FbValue.vInt 1) (createJob "r1" emptyJobs)))
      = some ⟨JobStatus.processing, none, none⟩
    ∧ getJob "r1" (setJobResult "r1" (FbValue.vInt 1) (createJob "r1" emptyJobs))
      = some ⟨JobStatus.done, some (FbValue.vInt 1), none⟩ := by
  constructor <;> rfl

/-- Claim C7, amended: `createJob(id)` on an id that already exists does not
fail — it silently overwrites the existing entry with a fresh
`{status: processing}` job (last writer wins). -/
theorem createJob_overwrites_existing (requestId : String) (jobs : JobMap) :
    getJob requestId (createJob requestId jobs)
      = some ⟨JobStatus.processing, none, none⟩ := by
  simp [getJob, createJob]

theorem applyOp_other (op : JobOp) (m : JobMap) (i : String)
    (h : JobOp.requestId op ≠ i) : applyOp op m i = m i := by
  cases op with
  | create j =>
    have hij : ¬ i = j := fun hh => h hh.symm
    simp [applyOp, createJob, hij]
  | setResult j v =>
    have hij : ¬ i = j := fun hh => h hh.symm
    simp [applyOp, setJobResult, hij]
  | setError j e =>
    have hij : ¬ i = j := fun hh => h hh.symm
    simp [applyOp, setJobError, hij]

theorem runOps_other (ops : List JobOp) (m : JobMap) (i : String)
    (h : ∀ op ∈ ops, JobOp.requestId op ≠ i) : runOps ops m i = m i := by
  induction ops generalizing m with
  | nil => rfl
  | cons a rest ih =>
    have h1 := applyOp_other a m i (h a (by simp))
    have h2 := ih (applyOp a m) fun op hop => h op (by simp [hop])
    show runOps rest (applyOp a m) i = m i
    rw [h2, h1]

theorem createJob_self (i : String) (m : JobMap) :
    createJob i m i = some ⟨JobStatus.processing, none, none⟩ := by
  simp [createJob]

/-- Claim C8: along every mutation sequence the system performs for an async
request id (the POST /async-query protocol: `createJob`, unrelated-request
mutations, then one terminal write when the backing operation finishes),
`getJob` reports `processing` immediately after `createJob`, reports exactly
a terminal status (`done` or `error`) after the backing operation finishes,
and never observes a terminal job that was not observed `processing` at an
earlier point of the trace — no transition skips `processing`. -/
theorem jobTracker_lifecycle (i : String) (tr : List JobOp) (m0 : JobMap)
    (h0 : m0 i = none) (htr : asyncTrace i tr) :
    getJob i (stateAt tr m0 1) = some ⟨JobStatus.processing, none, none⟩
    ∧ (∃ j, getJob i (stateAt tr m0 tr.length) = some j
        ∧ j.status.isTerminal = true)
    ∧ (∀ k j, getJob i (stateAt tr m0 k) = some j → j.status.isTerminal = true →
        ∃ k2, k2 < k
          ∧ getJob i (stateAt tr m0 k2) = some ⟨JobStatus.processing, none, none⟩) := by
  obtain ⟨mid, fin, rfl, hmid, hfin⟩ := htr
  have hA : getJob i (stateAt (JobOp.create i :: mid ++ [fin]) m0 1)
      = some ⟨JobStatus.processing, none, none⟩ := by
    show (createJob i m0) i = some ⟨JobStatus.processing, none, none⟩
    exact createJob_self i m0
  have hlen : (JobOp.create i :: mid ++ [fin]).length = mid.length + 2 := by simp
  have hmids : runOps mid (createJob i m0) i
      = some ⟨JobStatus.processing, none, none⟩ := by
    rw [runOps_other mid (createJob i m0) i hmid]
    exact createJob_self i m0
  have hfinstate : stateAt (JobOp.create i :: mid ++ [fin]) m0 (mid.length + 2)
      = applyOp fin (runOps mid (createJob i m0)) := by
    rw [stateAt, ← hlen, List.take_length]
    show runOps (mid ++ [fin]) (createJob i m0)
        = applyOp fin (runOps mid (createJob i m0))
    rw [runOps, List.foldl_append]
    rfl
  refine ⟨hA, ?_, ?_⟩
  · rw [hlen, hfinstate]
    rcases hfin with ⟨v, rfl⟩ | ⟨msg, rfl⟩
    · exact ⟨⟨JobStatus.done, some v, none⟩,
        by simp [getJob, applyOp, setJobResult, hmids], rfl⟩
    · exact ⟨⟨JobStatus.error, none, some msg⟩,
        by simp [getJob, applyOp, setJobError, hmids], rfl⟩
  · intro k j hsome hterm
    cases k with
    | zero =>
      exfalso
      have hz : getJob i (stateAt (JobOp.create i :: mid ++ [fin]) m0 0) = none := h0
      rw [hz] at hsome
      cases hsome
    | succ k1 =>
      cases k1 with
      | zero =>
        exfalso
        obtain rfl := Option.some.inj (hA.symm.trans hsome)
        simp [JobStatus.isTerminal] at hterm
      | succ k2 =>
        exact ⟨1, by omega, hA⟩

theorem jobTracker_lifecycle_witness :
    getJob "r1" (stateAt [JobOp.create "r1", JobOp.create "x2",
        JobOp.setResult "r1" (FbValue.vInt 7)] emptyJobs 1)
      = some ⟨JobStatus.processing, none, none⟩ :=
  (jobTracker_lifecycle "r1"
    [JobOp.create "r1", JobOp.create "x2", JobOp.setResult "r1" (FbValue.vInt 7)]
    emptyJobs rfl
    ⟨[JobOp.create "x2"], JobOp.setResult "r1" (FbValue.vInt 7), rfl,
      by
        intro op hop
        simp only [List.mem_singleton] at hop
        subst hop
        decide,
      Or.inl ⟨FbValue.vInt 7, rfl⟩⟩).1
